import Mathlib

/-!
Shallow embedding of the RBAC permission core of the MOA FastAPI backend:
the `PermissionName` / `PermissionResource` value objects, the `Permission`,
`Role` and `User` entities, and `CreatePermissionUseCase`, together with the
exception hierarchy of `auth_exceptions.py`.

Python strings are modelled as `List Char` (one element per code point, so
`List.length` is Python's `len`).  `str.strip` and `str.lower` are modelled
on their ASCII behaviour (the repository's grammar only ever accepts ASCII
`[a-z0-9_.]` data, so the Unicode tails of those functions are never
reached by accepted values).  Raising an exception is modelled by
`Except PyExc`, where a `PyExc` carries the Python class of the exception
and its message.
-/

/-- A Python `str` value, one entry per code point. -/
abbrev PyStr := List Char

/-- A Lean string literal as a Python string value. -/
def pyS (s : String) : PyStr := s.data

/-- `c` is in the ASCII range `a`-`z`. -/
def isLowerAZ (c : Char) : Bool := 'a' ≤ c && c ≤ 'z'

/-- `c` is in the ASCII range `0`-`9`. -/
def isDigit09 (c : Char) : Bool := '0' ≤ c && c ≤ '9'

/-- One character of the character class `[a-z0-9_]`. -/
def isWordChar (c : Char) : Bool := isLowerAZ c || isDigit09 c || c == '_'

/-- The ASCII whitespace characters `str.strip()` removes. -/
def isPySpace (c : Char) : Bool :=
  c == ' ' || c == '\t' || c == '\n' || c == '\r' || c == '\x0b' || c == '\x0c'

/-- Python `str.lower()` (ASCII case mapping: `Char.toLower` lowers exactly
`A`-`Z`). -/
def pyLower (s : PyStr) : PyStr := s.map Char.toLower

/-- Python `str.strip()`: drop leading and trailing whitespace. -/
def pyStrip (s : PyStr) : PyStr :=
  ((s.dropWhile isPySpace).reverse.dropWhile isPySpace).reverse

/-- Python `str.split(sep)` for a one-character separator: always returns a
non-empty list; `"".split(".") == [""]` and `"a..b".split(".") == ["a","","b"]`. -/
def pySplit (sep : Char) : PyStr → List PyStr
  | [] => [[]]
  | c :: cs =>
    match pySplit sep cs with
    | [] => [[]]
    | p :: ps => if c == sep then [] :: p :: ps else (c :: p) :: ps

/-- Python `str.split(sep, 1)`: split at the leftmost separator only.
`none` when the separator does not occur (the result then has a single
element, and unpacking it into two names raises `ValueError`). -/
def pySplitOnce (sep : Char) : PyStr → Option (PyStr × PyStr)
  | [] => none
  | c :: cs =>
    if c == sep then some ([], cs)
    else
      match pySplitOnce sep cs with
      | some (a, b) => some (c :: a, b)
      | none => none

/-- Remove one trailing newline, when present.  Python's `$` anchor matches
at the end of the subject or just before one newline that ends it, so
`re.match(r"^X+$", s)` succeeds on `s` exactly when it succeeds on
`dropTrailingNewline s` with `$` read as true end-of-string. -/
def dropTrailingNewline (s : PyStr) : PyStr :=
  if s.getLast? = some '\n' then s.dropLast else s

/-- Python `re.match(r"^[a-z0-9_]+$", s) is not None`: a non-empty run of
word characters, optionally followed by one final newline (the `$` quirk). -/
def reMatchWordPlus (s : PyStr) : Bool :=
  let t := dropTrailingNewline s
  !t.isEmpty && t.all isWordChar

/-- Python `re.match(r"^[a-z][a-z0-9_]*$", s) is not None` (for
`PermissionResource`): a lowercase letter, then word characters, optionally
one final newline. -/
def reMatchResourceFmt (s : PyStr) : Bool :=
  match dropTrailingNewline s with
  | [] => false
  | c :: rest => isLowerAZ c && rest.all isWordChar

/-- One `set.add`, with the set carried as its members in first-insertion
order (the sort applied afterwards makes the order immaterial). -/
def pySetAdd (s : List PyStr) (v : PyStr) : List PyStr :=
  if v ∈ s then s else s ++ [v]

/-- Python `list.remove(x)` under an id-based `__eq__`: drop the first
element carrying the given id. -/
def removeFirstBy (idOf : α → Nat) (i : Nat) : List α → List α
  | [] => []
  | x :: xs => if idOf x == i then xs else x :: removeFirstBy idOf i xs

/-! ## Exceptions (`auth_exceptions.py` plus the needed Python builtins) -/

/-- The Python exception classes the embedded code can raise.  The `…Cls`
names stand for `Exception`, `ValueError`, `AttributeError` (builtins) and
the classes of `auth_exceptions.py`. -/
inductive ExcClass
  | exceptionCls
  | valueErrorCls
  | attributeErrorCls
  | authExceptionCls
  | domainValidationCls
  | permissionExceptionCls
  | permissionAlreadyExistsCls
  | invalidPermissionFormatCls
  deriving DecidableEq

/-- The declared base class of each class (from the `class C(B):` headers;
`ValueError` and `AttributeError` derive from `Exception` in Python). -/
def ExcClass.parent : ExcClass → Option ExcClass
  | .exceptionCls => none
  | .valueErrorCls => some .exceptionCls
  | .attributeErrorCls => some .exceptionCls
  | .authExceptionCls => some .exceptionCls
  | .domainValidationCls => some .authExceptionCls
  | .permissionExceptionCls => some .authExceptionCls
  | .permissionAlreadyExistsCls => some .permissionExceptionCls
  | .invalidPermissionFormatCls => some .permissionExceptionCls

/-- Walk at most `n` steps up the base-class chain looking for `d`. -/
def ExcClass.isSubclassAux : Nat → ExcClass → ExcClass → Bool
  | 0, _, _ => false
  | n + 1, c, d =>
    c == d ||
      match c.parent with
      | some p => ExcClass.isSubclassAux n p d
      | none => false

/-- Python `issubclass(c, d)` on the classes above (every chain has depth
at most 4, so fuel 8 is exact). -/
def ExcClass.isSubclass (c d : ExcClass) : Bool := ExcClass.isSubclassAux 8 c d

/-- A raised Python exception: its class and its message. -/
structure PyExc where
  cls : ExcClass
  msg : PyStr
  deriving DecidableEq

/-- `InvalidPermissionFormatException(permission_name)`: message
`f"Formato inválido: '{permission_name}'. Use 'resource.action'"`. -/
def InvalidPermissionFormatException (permission_name : PyStr) : PyExc :=
  ⟨.invalidPermissionFormatCls,
    pyS "Formato inválido: '" ++ permission_name ++ pyS "'. Use 'resource.action'"⟩

/-- `PermissionAlreadyExistsException(permission_name)`: message
`f"Permissão '{permission_name}' já existe"`. -/
def PermissionAlreadyExistsException (permission_name : PyStr) : PyExc :=
  ⟨.permissionAlreadyExistsCls, pyS "Permissão '" ++ permission_name ++ pyS "' já existe"⟩

/-- `DomainValidationException(message)`. -/
def DomainValidationException (message : PyStr) : PyExc :=
  ⟨.domainValidationCls, message⟩

/-- `Except.isOk` as a plain definition. -/
def isOk : Except ε α → Bool
  | .ok _ => true
  | .error _ => false

/-! ## `PermissionResource` (`permission_resource_vo.py`) -/

/-- Value object `PermissionResource`: holds the already-validated value. -/
structure PermissionResource where
  value : PyStr
  deriving DecidableEq

/-- `PermissionResource.__init__`: rejects the empty string, then requires
`re.match(r"^[a-z][a-z0-9_]*$", value)`; both rejections raise `ValueError`. -/
def PermissionResource.make (value : PyStr) : Except PyExc PermissionResource :=
  if value.isEmpty then
    .error ⟨.valueErrorCls, pyS "Resource não pode ser vazio"⟩
  else if !reMatchResourceFmt value then
    .error ⟨.valueErrorCls, pyS "Resource deve conter apenas letras minúsculas, números ou _"⟩
  else
    .ok ⟨value⟩

/-! ## `PermissionName` (`permission_name_vo.py`) -/

/-- Value object `PermissionName`: a frozen dataclass holding the normalized
value; `eq=True` makes equality and hash follow the `value` field. -/
structure PermissionName where
  value : PyStr
  deriving DecidableEq

/-- `PermissionName._is_valid_permission_format`: split on `"."`, require
2 to 5 parts, each matching `^[a-z0-9_]+$`. -/
def PermissionName.is_valid_permission_format (name : PyStr) : Bool :=
  let parts := pySplit '.' name
  if parts.length < 2 || parts.length > 5 then false
  else parts.all reMatchWordPlus

/-- `PermissionName.__post_init__`: reject the empty raw string, normalize by
`strip().lower()`, check length 3–100 and the format, store the normalized
value.  Every rejection raises `InvalidPermissionFormatException`. -/
def PermissionName.post_init (value : PyStr) : Except PyExc PermissionName :=
  if value.isEmpty then
    .error (InvalidPermissionFormatException (pyS "Nome da permissão não pode ser vazio"))
  else
    let normalized := pyLower (pyStrip value)
    if normalized.length < 3 then
      .error (InvalidPermissionFormatException (pyS "Nome da permissão muito curto (mínimo 3 caracteres)"))
    else if normalized.length > 100 then
      .error (InvalidPermissionFormatException (pyS "Nome da permissão muito longo (máximo 100 caracteres)"))
    else if !PermissionName.is_valid_permission_format normalized then
      .error (InvalidPermissionFormatException (pyS "Permissão deve estar no formato 'resource.action' (ex: users.create, admin.users.delete). Use apenas letras, números e underscore, separados por pontos."))
    else
      .ok ⟨normalized⟩

/-- `PermissionName.get_parts`: `self.value.split(".")` (never empty). -/
def PermissionName.get_parts (pn : PermissionName) : List PyStr :=
  pySplit '.' pn.value

/-- `PermissionName.get_depth`: number of parts. -/
def PermissionName.get_depth (pn : PermissionName) : Nat :=
  pn.get_parts.length

/-- `PermissionName.is_nested`: depth strictly above 2. -/
def PermissionName.is_nested (pn : PermissionName) : Bool :=
  decide (pn.get_depth > 2)

/-- `PermissionName.get_base_resource`: `self.get_parts()[0]` (the split is
never empty, so the Python indexing cannot fail). -/
def PermissionName.get_base_resource (pn : PermissionName) : PyStr :=
  pn.get_parts.headI

/-- Property `PermissionName.action`: `self.value.split(".")[-1]` (the split
is never empty, so the Python indexing cannot fail). -/
def PermissionName.action (pn : PermissionName) : PyStr :=
  (pySplit '.' pn.value).getLastD []

/-- Property `PermissionName.resource`: builds a `PermissionResource` from
`self.get_base_resource()` — the FIRST part — and so can raise the
`ValueError` of `PermissionResource.__init__`. -/
def PermissionName.resource (pn : PermissionName) : Except PyExc PermissionResource :=
  PermissionResource.make pn.get_base_resource

/-- The class `PermissionName` defines no attribute `get_resource` (it has
the property `resource` and the method `get_base_resource`), so the lookup
`self.nome.get_resource` made by `Permission` raises `AttributeError`. -/
def PermissionName.getattr_get_resource (_ : PermissionName) : Except PyExc PyStr :=
  .error ⟨.attributeErrorCls, pyS "'PermissionName' object has no attribute 'get_resource'"⟩

/-- The class `PermissionName` defines no attribute `get_action` either (it
has the property `action`): the lookup raises `AttributeError`. -/
def PermissionName.getattr_get_action (_ : PermissionName) : Except PyExc PyStr :=
  .error ⟨.attributeErrorCls, pyS "'PermissionName' object has no attribute 'get_action'"⟩

/-! ## `Permission` (`permission_entity.py`) -/

/-- Entity `Permission`: frozen dataclass; `__eq__`/`__hash__` use `id` only,
so Python collection membership for permissions is id-based.  `EntityId`
values and timestamps are modelled as `Nat`. -/
structure Permission where
  id : Nat
  nome : PermissionName
  descricao : Option PyStr
  data_criacao : Nat
  deriving DecidableEq

/-- `Permission.create`: validates the raw name through `PermissionName`;
the generated `EntityId` and the UTC timestamp are passed in explicitly. -/
def Permission.create (freshId now : Nat) (nome : PyStr) (descricao : Option PyStr) :
    Except PyExc Permission :=
  (PermissionName.post_init nome).map fun pn => ⟨freshId, pn, descricao, now⟩

/-- `Permission.get_resource`: `self.nome.get_resource()` — an attribute
`PermissionName` does not have. -/
def Permission.get_resource (p : Permission) : Except PyExc PyStr :=
  p.nome.getattr_get_resource

/-- `Permission.get_action`: `self.nome.get_action()` — an attribute
`PermissionName` does not have. -/
def Permission.get_action (p : Permission) : Except PyExc PyStr :=
  p.nome.getattr_get_action

/-- `Permission.get_full_name`: the normalized name string. -/
def Permission.get_full_name (p : Permission) : PyStr :=
  p.nome.value

/-- `Permission.matches(pattern)`: a pattern without `*` compares for full
equality with the normalized name; otherwise the pattern is lowered, split
once on `.` (unpacking into two names: `ValueError` when there is no dot),
and each side is `*` or — short-circuit `or` — compared against
`self.nome.get_resource()` / `self.nome.get_action()`, calls that raise
`AttributeError` because `PermissionName` has no such attributes. -/
def Permission.matches (p : Permission) (pattern : PyStr) : Except PyExc Bool :=
  if !pattern.contains '*' then
    .ok (decide (p.nome.value = pyLower pattern))
  else
    match pySplitOnce '.' (pyLower pattern) with
    | none => .error ⟨.valueErrorCls, pyS "not enough values to unpack (expected 2, got 1)"⟩
    | some (resource_pattern, action_pattern) => do
      let resource_match ←
        if resource_pattern = pyS "*" then pure true
        else do
          let r ← p.nome.getattr_get_resource
          pure (decide (r = resource_pattern))
      let action_match ←
        if action_pattern = pyS "*" then pure true
        else do
          let a ← p.nome.getattr_get_action
          pure (decide (a = action_pattern))
      pure (resource_match && action_match)

/-! ## `Role` (`role_entity.py`) -/

/-- Value object `RoleName` (validation elided: no claim depends on it). -/
structure RoleName where
  value : PyStr
  deriving DecidableEq

/-- Entity `Role`: `__eq__`/`__hash__` by `id`, so role membership in Python
lists is id-based.  Mutation of the dataclass is modelled by returning the
updated value. -/
structure Role where
  id : Nat
  nome : RoleName
  permissions : List Permission
  deriving DecidableEq

/-- `Role.create`: a fresh role starts with an empty permission list; the
generated id is passed in explicitly. -/
def Role.create (freshId : Nat) (nome : RoleName) : Role :=
  ⟨freshId, nome, []⟩

/-- `Role.add_permission`: `if permission not in self.permissions: append` —
membership through `Permission.__eq__`, i.e. by id. -/
def Role.add_permission (r : Role) (permission : Permission) : Role :=
  if r.permissions.any (fun q => q.id == permission.id) then r
  else ⟨r.id, r.nome, r.permissions ++ [permission]⟩

/-- `Role.remove_permission`: `if permission in self.permissions:
self.permissions.remove(permission)` — guarded first removal by id; a
non-member is a no-op and nothing is raised. -/
def Role.remove_permission (r : Role) (permission : Permission) : Role :=
  if r.permissions.any (fun q => q.id == permission.id) then
    ⟨r.id, r.nome, removeFirstBy Permission.id permission.id r.permissions⟩
  else r

/-- `Role.has_permission`: `any(p.nome.value == permission_name.lower() for
p in self.permissions)`. -/
def Role.has_permission (r : Role) (permission_name : PyStr) : Bool :=
  r.permissions.any (fun p => decide (p.nome.value = pyLower permission_name))

/-- `Role.get_permission_names`. -/
def Role.get_permission_names (r : Role) : List PyStr :=
  r.permissions.map (fun p => p.nome.value)

/-- `Role.clear_permissions`: `self.permissions.clear()`. -/
def Role.clear_permissions (r : Role) : Role :=
  ⟨r.id, r.nome, []⟩

/-! ## `User` (`user_entity.py`) -/

/-- Aggregate root `User`: `__eq__`/`__hash__` by `id`.  The value-object
fields are carried as opaque strings; `enderecos` is omitted (outside the
authorization model and untouched by every claim). -/
structure User where
  id : Nat
  nome : PyStr
  email : PyStr
  senha : PyStr
  nome_usuario : PyStr
  id_token_firebase : Option PyStr
  data_cadastro : Nat
  roles : List Role
  deriving DecidableEq

/-- `User.create`: a fresh user starts with an empty role list (value-object
validation elided: no claim depends on it). -/
def User.create (freshId : Nat) (nome email senha nome_usuario : PyStr)
    (id_token_firebase : Option PyStr) (now : Nat) : User :=
  ⟨freshId, nome, email, senha, nome_usuario, id_token_firebase, now, []⟩

/-- `User.add_role`: `if role not in self.roles: append` — membership by
`Role.__eq__`, i.e. by id. -/
def User.add_role (u : User) (role : Role) : User :=
  if u.roles.any (fun r => r.id == role.id) then u
  else ⟨u.id, u.nome, u.email, u.senha, u.nome_usuario, u.id_token_firebase,
        u.data_cadastro, u.roles ++ [role]⟩

/-- `User.remove_role`: guarded first removal by id; a non-member is a
no-op and nothing is raised. -/
def User.remove_role (u : User) (role : Role) : User :=
  if u.roles.any (fun r => r.id == role.id) then
    ⟨u.id, u.nome, u.email, u.senha, u.nome_usuario, u.id_token_firebase,
     u.data_cadastro, removeFirstBy Role.id role.id u.roles⟩
  else u

/-- `User.has_permission`: the for-loop over `self.roles` returning `True`
on the first role whose `has_permission` holds, `False` after the loop. -/
def User.has_permission (u : User) (permission_name : PyStr) : Bool :=
  u.roles.any (fun role => role.has_permission permission_name)

/-- The `set` built by `User.get_all_permissions`, carried in
first-insertion order. -/
def User.collect_permission_values (u : User) : List PyStr :=
  u.roles.foldl
    (fun s role => role.permissions.foldl (fun t p => pySetAdd t p.nome.value) s) []

/-- `User.get_all_permissions`: `sorted(list(permissions))` of the set of
all owned permission names.  `sorted` on distinct strings yields the unique
ascending ordering; `List.insertionSort` with lexicographic `≤` on
`List Char` (Python's code-point string order) models it. -/
def User.get_all_permissions (u : User) : List PyStr :=
  List.insertionSort (· ≤ ·) u.collect_permission_values

/-! ## Operation sequences over the aggregates (for the set-semantics claim) -/

/-- A mutation of a `Role`'s permission collection. -/
inductive RoleOp
  | add (p : Permission)
  | remove (p : Permission)
  | clear

/-- Apply one `RoleOp`. -/
def Role.applyOp (r : Role) : RoleOp → Role
  | .add p => r.add_permission p
  | .remove p => r.remove_permission p
  | .clear => r.clear_permissions

/-- Apply a sequence of `RoleOp`s in order. -/
def Role.runOps (r : Role) (ops : List RoleOp) : Role :=
  ops.foldl Role.applyOp r

/-- A mutation of a `User`'s role collection. -/
inductive UserOp
  | add (ro : Role)
  | remove (ro : Role)

/-- Apply one `UserOp`. -/
def User.applyOp (u : User) : UserOp → User
  | .add ro => u.add_role ro
  | .remove ro => u.remove_role ro

/-- Apply a sequence of `UserOp`s in order. -/
def User.runOps (u : User) (ops : List UserOp) : User :=
  ops.foldl User.applyOp u

/-! ## Repository and `CreatePermissionUseCase`
(`permission_repository_impl.py`, `create_permission_usecase.py`) -/

/-- The permission table, as the rows it holds. -/
structure PermissionRepo where
  perms : List Permission
  deriving DecidableEq

/-- `PermissionRepositoryImpl.find_by_name`: select the row whose stored
`nome` column equals `name.value`. -/
def PermissionRepo.find_by_name (repo : PermissionRepo) (name : PermissionName) :
    Option Permission :=
  repo.perms.find? (fun p => decide (p.nome.value = name.value))

/-- `PermissionRepositoryImpl.create`: insert the new row. -/
def PermissionRepo.createRow (repo : PermissionRepo) (p : Permission) : PermissionRepo :=
  ⟨repo.perms ++ [p]⟩

/-- `PermissionResponseDTO`. -/
structure PermissionResponseDTO where
  id : Nat
  nome : PyStr
  descricao : Option PyStr
  data_criacao : Nat
  resource : PyStr
  action : PyStr
  deriving DecidableEq

/-- `CreatePermissionUseCase._to_response_dto`: evaluates
`permission.get_resource()` (and then `get_action()`), which raise
`AttributeError` through the missing `PermissionName` attributes. -/
def CreatePermissionUseCase.to_response_dto (permission : Permission) :
    Except PyExc PermissionResponseDTO := do
  let r ← permission.get_resource
  let a ← permission.get_action
  pure ⟨permission.id, permission.nome.value, permission.descricao,
        permission.data_criacao, r, a⟩

/-- `CreatePermissionUseCase.execute`, state-passing over the repository:
1. validate through `PermissionName` — the `except ValueError` wrapper turns
   an exception into `DomainValidationException` only when its class is a
   subclass of `ValueError`, otherwise the exception propagates unchanged;
2. `find_by_name`; raise `PermissionAlreadyExistsException` when a row exists
   (the repository untouched);
3. build the entity (re-validating `dto.nome`); 4. persist;
5. convert to the response DTO.
Transactional rollback on a propagating exception is a persistence-layer
concern outside this model: the returned state is the state after the last
completed step. -/
def CreatePermissionUseCase.execute (repo : PermissionRepo) (dto_nome : PyStr)
    (dto_descricao : Option PyStr) (freshId now : Nat) :
    Except PyExc PermissionResponseDTO × PermissionRepo :=
  match PermissionName.post_init dto_nome with
  | .error e =>
    if ExcClass.isSubclass e.cls .valueErrorCls then
      (.error (DomainValidationException e.msg), repo)
    else
      (.error e, repo)
  | .ok permission_name =>
    match repo.find_by_name permission_name with
    | some _ => (.error (PermissionAlreadyExistsException permission_name.value), repo)
    | none =>
      match Permission.create freshId now dto_nome dto_descricao with
      | .error e => (.error e, repo)
      | .ok permission =>
        let repo2 := repo.createRow permission
        match CreatePermissionUseCase.to_response_dto permission with
        | .error e => (.error e, repo2)
        | .ok dto => (.ok dto, repo2)

/-! ## Claim-side restatements (compared against the embedded code) -/

/-- The grammar of the specification, read off the claim: length 3–100,
2–5 dot-separated parts, each part matching `^[a-z0-9_]+$`. -/
def specGrammar (n : PyStr) : Bool :=
  3 ≤ n.length && n.length ≤ 100 &&
    (let parts := pySplit '.' n
     2 ≤ parts.length && parts.length ≤ 5 && parts.all reMatchWordPlus)

/-- The first character is an ASCII lowercase letter. -/
def firstCharIsLowerAZ : PyStr → Bool
  | [] => false
  | c :: _ => isLowerAZ c

/-! ## Helper lemmas -/

theorem mem_pySetAdd {s : List PyStr} {v a : PyStr} :
    a ∈ pySetAdd s v ↔ a ∈ s ∨ v = a := by
  unfold pySetAdd
  split_ifs with h
  · constructor
    · exact Or.inl
    · rintro (h1 | rfl)
      · exact h1
      · exact h
  · simp [List.mem_append, eq_comm]

theorem nodup_pySetAdd {s : List PyStr} (v : PyStr) (h : s.Nodup) :
    (pySetAdd s v).Nodup := by
  unfold pySetAdd
  split_ifs with hv
  · exact h
  · simp [List.nodup_append, h, hv]

theorem mem_foldl_pySetAdd (ps : List Permission) (s : List PyStr) (a : PyStr) :
    a ∈ ps.foldl (fun t p => pySetAdd t p.nome.value) s
      ↔ a ∈ s ∨ ∃ p ∈ ps, p.nome.value = a := by
  induction ps generalizing s with
  | nil => simp
  | cons p ps ih =>
    simp only [List.foldl_cons, ih, mem_pySetAdd, List.mem_cons]
    constructor
    · rintro ((h | h) | h)
      · exact Or.inl h
      · exact Or.inr ⟨p, Or.inl rfl, h⟩
      · obtain ⟨q, hq, hv⟩ := h
        exact Or.inr ⟨q, Or.inr hq, hv⟩
    · rintro (h | ⟨q, (rfl | hq), hv⟩)
      · exact Or.inl (Or.inl h)
      · exact Or.inl (Or.inr hv)
      · exact Or.inr ⟨q, hq, hv⟩

theorem nodup_foldl_pySetAdd (ps : List Permission) (s : List PyStr) (h : s.Nodup) :
    (ps.foldl (fun t p => pySetAdd t p.nome.value) s).Nodup := by
  induction ps generalizing s with
  | nil => exact h
  | cons p ps ih => exact ih _ (nodup_pySetAdd _ h)

theorem mem_foldl_roles (rs : List Role) (s : List PyStr) (a : PyStr) :
    a ∈ rs.foldl
        (fun s role => role.permissions.foldl (fun t p => pySetAdd t p.nome.value) s) s
      ↔ a ∈ s ∨ ∃ role ∈ rs, ∃ p ∈ role.permissions, p.nome.value = a := by
  induction rs generalizing s with
  | nil => simp
  | cons r rs ih =>
    simp only [List.foldl_cons, ih, mem_foldl_pySetAdd, List.mem_cons]
    constructor
    · rintro ((h | h) | h)
      · exact Or.inl h
      · exact Or.inr ⟨r, Or.inl rfl, h⟩
      · obtain ⟨q, hq, hv⟩ := h
        exact Or.inr ⟨q, Or.inr hq, hv⟩
    · rintro (h | ⟨q, (rfl | hq), hv⟩)
      · exact Or.inl (Or.inl h)
      · exact Or.inl (Or.inr hv)
      · exact Or.inr ⟨q, hq, hv⟩

theorem nodup_foldl_roles (rs : List Role) (s : List PyStr) (h : s.Nodup) :
    (rs.foldl
      (fun s role => role.permissions.foldl (fun t p => pySetAdd t p.nome.value) s) s).Nodup := by
  induction rs generalizing s with
  | nil => exact h
  | cons r rs ih => exact ih _ (nodup_foldl_pySetAdd _ _ h)

theorem mem_collect_permission_values (u : User) (a : PyStr) :
    a ∈ u.collect_permission_values
      ↔ ∃ role ∈ u.roles, ∃ p ∈ role.permissions, p.nome.value = a := by
  unfold User.collect_permission_values
  rw [mem_foldl_roles]
  simp

theorem nodup_collect_permission_values (u : User) :
    u.collect_permission_values.Nodup :=
  nodup_foldl_roles _ _ List.nodup_nil

/-! ## Claim theorems -/

/-- C1: the spec says the derived resource of a `PermissionName` is all
dot-separated parts but the last joined by `.`.  The code's `resource`
property instead returns only the FIRST part (`get_base_resource`),
contradicting its own docstring for depths above 2: `admin.users.delete`
yields resource `admin`, not `admin.users`.  At depth exactly 2 the two
agree and `resource ++ "." ++ action` recovers the stored value. -/
theorem resource_property_returns_first_part :
    (PermissionName.post_init (pyS "admin.users.delete") = .ok ⟨pyS "admin.users.delete"⟩)
    ∧ ((⟨pyS "admin.users.delete"⟩ : PermissionName).resource = .ok ⟨pyS "admin"⟩)
    ∧ ((⟨pyS "admin.users.delete"⟩ : PermissionName).action = pyS "delete")
    ∧ (pyS "admin" ≠ pyS "admin.users")
    ∧ ((⟨pyS "users.create"⟩ : PermissionName).resource = .ok ⟨pyS "users"⟩)
    ∧ ((⟨pyS "users.create"⟩ : PermissionName).action = pyS "create")
    ∧ (pyS "users" ++ pyS "." ++ pyS "create" = pyS "users.create") :=
  ⟨rfl, rfl, rfl, by decide, rfl, rfl, by decide⟩

/-- C2: the spec says `Permission.matches` supports glob wildcards and always
returns a boolean.  In the code every wildcard comparison calls
`self.nome.get_resource()` / `self.nome.get_action()`, attributes the
`PermissionName` class does not define, so `matches("users.*")` and
`matches("*.create")` raise `AttributeError` instead of returning a boolean;
only the no-`*` exact comparison works. -/
theorem matches_wildcard_raises_attribute_error :
    (Permission.matches ⟨1, ⟨pyS "users.create"⟩, none, 0⟩ (pyS "users.*")
      = .error ⟨.attributeErrorCls, pyS "'PermissionName' object has no attribute 'get_resource'"⟩)
    ∧ (Permission.matches ⟨1, ⟨pyS "users.create"⟩, none, 0⟩ (pyS "*.create")
      = .error ⟨.attributeErrorCls, pyS "'PermissionName' object has no attribute 'get_action'"⟩)
    ∧ (Permission.matches ⟨2, ⟨pyS "posts.create"⟩, none, 0⟩ (pyS "users.*")
      = .error ⟨.attributeErrorCls, pyS "'PermissionName' object has no attribute 'get_resource'"⟩)
    ∧ (Permission.matches ⟨1, ⟨pyS "users.create"⟩, none, 0⟩ (pyS "users.create") = .ok true)
    ∧ (Permission.matches ⟨1, ⟨pyS "users.create"⟩, none, 0⟩ (pyS "users.delete") = .ok false)
    ∧ (Permission.matches ⟨2, ⟨pyS "posts.create"⟩, none, 0⟩ (pyS "posts.create") = .ok true) :=
  ⟨rfl, rfl, rfl, rfl, rfl, rfl⟩

/-- C3: `User.has_permission p` is true exactly when some attached role holds
a permission whose normalized name equals `p` lowercased (a logical OR over
the roles); with no roles it is false for every `p`. -/
theorem user_has_permission_iff_some_role (u : User) (p : PyStr) :
    (u.has_permission p = true
      ↔ ∃ role ∈ u.roles, ∃ perm ∈ role.permissions, perm.nome.value = pyLower p)
    ∧ (u.roles = [] → u.has_permission p = false) := by
  constructor
  · simp [User.has_permission, Role.has_permission, List.any_eq_true]
  · intro h
    simp [User.has_permission, h]

/-- C4: `User.get_all_permissions` is sorted, duplicate-free, and a name is a
member exactly when some attached role holds a permission with that name; on
a member its count is exactly 1, so a grant reachable through two roles
collapses to one entry. -/
theorem user_get_all_permissions_sorted_dedup_union (u : User) :
    u.get_all_permissions.Sorted (· ≤ ·)
    ∧ u.get_all_permissions.Nodup
    ∧ (∀ v, v ∈ u.get_all_permissions
        ↔ ∃ role ∈ u.roles, ∃ p ∈ role.permissions, p.nome.value = v)
    ∧ (∀ v, ¬ u.get_all_permissions.Duplicate v) := by
  have hperm : u.get_all_permissions.Perm u.collect_permission_values :=
    List.perm_insertionSort _ _
  have hnd : u.get_all_permissions.Nodup :=
    hperm.nodup_iff.mpr (nodup_collect_permission_values u)
  refine ⟨List.sorted_insertionSort _ _, hnd, fun v => ?_,
    List.nodup_iff_forall_not_duplicate.mp hnd⟩
  rw [hperm.mem_iff, mem_collect_permission_values]


theorem removeFirstBy_sublist (idOf : α → Nat) (i : Nat) :
    ∀ l : List α, List.Sublist (removeFirstBy idOf i l) l
  | [] => List.Sublist.refl []
  | x :: xs => by
    unfold removeFirstBy
    split_ifs
    · exact List.sublist_cons_self x xs
    · exact List.Sublist.cons₂ x (removeFirstBy_sublist idOf i xs)

theorem add_permission_ids_nodup (r : Role) (p : Permission)
    (h : (r.permissions.map Permission.id).Nodup) :
    ((r.add_permission p).permissions.map Permission.id).Nodup := by
  unfold Role.add_permission
  split_ifs with hmem
  · exact h
  · simp only [List.map_append, List.map_cons, List.map_nil, List.nodup_append]
    refine ⟨h, List.nodup_singleton _, ?_⟩
    intro a ha hb
    simp only [List.mem_singleton] at hb
    subst hb
    obtain ⟨q, hq, hqa⟩ := List.mem_map.mp ha
    exact hmem (List.any_eq_true.mpr ⟨q, hq, by simp [hqa]⟩)

theorem remove_permission_ids_nodup (r : Role) (p : Permission)
    (h : (r.permissions.map Permission.id).Nodup) :
    ((r.remove_permission p).permissions.map Permission.id).Nodup := by
  unfold Role.remove_permission
  split_ifs
  · exact ((removeFirstBy_sublist Permission.id p.id r.permissions).map Permission.id).nodup h
  · exact h

theorem runOps_role_ids_nodup (ops : List RoleOp) (r : Role)
    (h : (r.permissions.map Permission.id).Nodup) :
    ((r.runOps ops).permissions.map Permission.id).Nodup := by
  induction ops generalizing r with
  | nil => exact h
  | cons op ops ih =>
    refine ih _ ?_
    cases op with
    | add p => exact add_permission_ids_nodup r p h
    | remove p => exact remove_permission_ids_nodup r p h
    | clear => simp [Role.applyOp, Role.clear_permissions]

theorem add_role_ids_nodup (u : User) (ro : Role)
    (h : (u.roles.map Role.id).Nodup) :
    ((u.add_role ro).roles.map Role.id).Nodup := by
  unfold User.add_role
  split_ifs with hmem
  · exact h
  · simp only [List.map_append, List.map_cons, List.map_nil, List.nodup_append]
    refine ⟨h, List.nodup_singleton _, ?_⟩
    intro a ha hb
    simp only [List.mem_singleton] at hb
    subst hb
    obtain ⟨q, hq, hqa⟩ := List.mem_map.mp ha
    exact hmem (List.any_eq_true.mpr ⟨q, hq, by simp [hqa]⟩)

theorem remove_role_ids_nodup (u : User) (ro : Role)
    (h : (u.roles.map Role.id).Nodup) :
    ((u.remove_role ro).roles.map Role.id).Nodup := by
  unfold User.remove_role
  split_ifs
  · exact ((removeFirstBy_sublist Role.id ro.id u.roles).map Role.id).nodup h
  · exact h

theorem runOps_user_ids_nodup (ops : List UserOp) (u : User)
    (h : (u.roles.map Role.id).Nodup) :
    ((u.runOps ops).roles.map Role.id).Nodup := by
  induction ops generalizing u with
  | nil => exact h
  | cons op ops ih =>
    refine ih _ ?_
    cases op with
    | add ro => exact add_role_ids_nodup u ro h
    | remove ro => exact remove_role_ids_nodup u ro h

/-- C5: id-based set semantics of the aggregates.  From a freshly created
`Role` (resp. `User`), any sequence of add/remove/clear operations leaves no
two entries sharing an id; adding an element whose id is already present is
a no-op (adding the same permission twice keeps one entry), and removing an
element whose id is absent is a no-op (the guarded `list.remove` raises
nothing). -/
theorem role_user_id_set_semantics :
    (∀ (i : Nat) (n : RoleName) (ops : List RoleOp),
      (((Role.create i n).runOps ops).permissions.map Permission.id).Nodup)
    ∧ (∀ (i : Nat) (a b c d : PyStr) (tok : Option PyStr) (t : Nat) (ops : List UserOp),
      (((User.create i a b c d tok t).runOps ops).roles.map Role.id).Nodup)
    ∧ (∀ (r : Role) (p : Permission),
      (∃ q ∈ r.permissions, q.id = p.id) → r.add_permission p = r)
    ∧ (∀ (r : Role) (p : Permission),
      (r.add_permission p).add_permission p = r.add_permission p)
    ∧ (∀ (r : Role) (p : Permission),
      (∀ q ∈ r.permissions, q.id ≠ p.id) → r.remove_permission p = r)
    ∧ (∀ (u : User) (ro : Role),
      (∃ s ∈ u.roles, s.id = ro.id) → u.add_role ro = u)
    ∧ (∀ (u : User) (ro : Role),
      (∀ s ∈ u.roles, s.id ≠ ro.id) → u.remove_role ro = u) := by
  refine ⟨fun i n ops => runOps_role_ids_nodup ops _ (by simp [Role.create]),
    fun i a b c d tok t ops => runOps_user_ids_nodup ops _ (by simp [User.create]),
    fun r p h => ?_, fun r p => ?_, fun r p h => ?_, fun u ro h => ?_, fun u ro h => ?_⟩
  · obtain ⟨q, hq, hid⟩ := h
    have hc : (r.permissions.any fun t => t.id == p.id) = true :=
      List.any_eq_true.mpr ⟨q, hq, by simp [hid]⟩
    unfold Role.add_permission
    rw [if_pos hc]
  · by_cases h1 : (r.permissions.any fun q => q.id == p.id) = true
    · simp [Role.add_permission, h1]
    · simp [Role.add_permission, h1, List.any_append]
  · have hc : ¬ (r.permissions.any fun t => t.id == p.id) = true := by
      intro hcon
      obtain ⟨q, hq, hid⟩ := List.any_eq_true.mp hcon
      exact h q hq (by simpa using hid)
    unfold Role.remove_permission
    rw [if_neg hc]
  · obtain ⟨s, hs, hid⟩ := h
    have hc : (u.roles.any fun t => t.id == ro.id) = true :=
      List.any_eq_true.mpr ⟨s, hs, by simp [hid]⟩
    unfold User.add_role
    rw [if_pos hc]
  · have hc : ¬ (u.roles.any fun t => t.id == ro.id) = true := by
      intro hcon
      obtain ⟨s, hs, hid⟩ := List.any_eq_true.mp hcon
      exact h s hs (by simpa using hid)
    unfold User.remove_role
    rw [if_neg hc]

theorem is_valid_eq_parts_conditions (n : PyStr) :
    PermissionName.is_valid_permission_format n
      = (2 ≤ (pySplit '.' n).length && (pySplit '.' n).length ≤ 5
          && (pySplit '.' n).all reMatchWordPlus) := by
  simp only [PermissionName.is_valid_permission_format]
  by_cases h : ((pySplit '.' n).length < 2 || (pySplit '.' n).length > 5) = true
  · rw [if_pos h]
    simp only [Bool.or_eq_true, decide_eq_true_eq] at h
    rcases h with h | h
    · simp [show ¬ (2 ≤ (pySplit '.' n).length) by omega]
    · simp [show ¬ ((pySplit '.' n).length ≤ 5) by omega]
  · rw [if_neg h]
    simp only [Bool.or_eq_true, decide_eq_true_eq, not_or, not_lt, not_le] at h
    simp [show 2 ≤ (pySplit '.' n).length by omega,
      show (pySplit '.' n).length ≤ 5 by omega]



set_option maxRecDepth 8192

theorem post_init_error_cls (s : PyStr) (e : PyExc)
    (h : PermissionName.post_init s = .error e) :
    e.cls = .invalidPermissionFormatCls := by
  by_cases h0 : s.isEmpty = true
  · simp [PermissionName.post_init, h0] at h
    subst h
    rfl
  · by_cases h1 : (pyLower (pyStrip s)).length < 3
    · simp [PermissionName.post_init, h0, h1] at h
      subst h
      rfl
    · by_cases h2 : (pyLower (pyStrip s)).length > 100
      · simp [PermissionName.post_init, h0, h1, h2] at h
        subst h
        rfl
      · by_cases h3 : PermissionName.is_valid_permission_format (pyLower (pyStrip s)) = true
        · simp [PermissionName.post_init, h0, h1, h2, h3] at h
        · simp [PermissionName.post_init, h0, h1, h2,
            Bool.eq_false_iff.mpr h3] at h
          subst h
          rfl

theorem post_init_ok_facts (s : PyStr) (pn : PermissionName)
    (h : PermissionName.post_init s = .ok pn) :
    pn.value = pyLower (pyStrip s)
    ∧ PermissionName.is_valid_permission_format pn.value = true
    ∧ 3 ≤ pn.value.length ∧ pn.value.length ≤ 100 := by
  by_cases h0 : s.isEmpty = true
  · simp [PermissionName.post_init, h0] at h
  · by_cases h1 : (pyLower (pyStrip s)).length < 3
    · simp [PermissionName.post_init, h0, h1] at h
    · by_cases h2 : (pyLower (pyStrip s)).length > 100
      · simp [PermissionName.post_init, h0, h1, h2] at h
      · by_cases h3 : PermissionName.is_valid_permission_format (pyLower (pyStrip s)) = true
        · simp [PermissionName.post_init, h0, h1, h2, h3] at h
          subst h
          refine ⟨rfl, h3, ?_, ?_⟩
          · show 3 ≤ (pyLower (pyStrip s)).length
            omega
          · show (pyLower (pyStrip s)).length ≤ 100
            omega
        · simp [PermissionName.post_init, h0, h1, h2,
            Bool.eq_false_iff.mpr h3] at h

theorem isOk_post_init_eq_specGrammar (s : PyStr) :
    isOk (PermissionName.post_init s) = specGrammar (pyLower (pyStrip s)) := by
  by_cases h0 : s.isEmpty = true
  · have hnil : s = [] := by simpa using h0
    subst hnil
    rfl
  · by_cases h1 : (pyLower (pyStrip s)).length < 3
    · simp [PermissionName.post_init, h0, h1, isOk, specGrammar,
        show ¬ (3 ≤ (pyLower (pyStrip s)).length) by omega]
    · by_cases h2 : (pyLower (pyStrip s)).length > 100
      · simp [PermissionName.post_init, h0, h1, h2, isOk, specGrammar,
          show ¬ ((pyLower (pyStrip s)).length ≤ 100) by omega]
      · have hp := is_valid_eq_parts_conditions (pyLower (pyStrip s))
        by_cases h3 : PermissionName.is_valid_permission_format (pyLower (pyStrip s)) = true
        · have hinner : (2 ≤ (pySplit '.' (pyLower (pyStrip s))).length
              && (pySplit '.' (pyLower (pyStrip s))).length ≤ 5
              && (pySplit '.' (pyLower (pyStrip s))).all reMatchWordPlus) = true := by
            rw [← hp]
            exact h3
          simp [PermissionName.post_init, h0, h1, h2, h3, isOk, specGrammar, hinner,
            show 3 ≤ (pyLower (pyStrip s)).length by omega,
            show (pyLower (pyStrip s)).length ≤ 100 by omega]
        · have hinner : (2 ≤ (pySplit '.' (pyLower (pyStrip s))).length
              && (pySplit '.' (pyLower (pyStrip s))).length ≤ 5
              && (pySplit '.' (pyLower (pyStrip s))).all reMatchWordPlus) = false := by
            rw [← hp]
            exact Bool.eq_false_iff.mpr h3
          simp [PermissionName.post_init, h0, h1, h2,
            Bool.eq_false_iff.mpr h3, isOk, specGrammar, hinner]

/-- C6: `PermissionName` construction fails — always with an
`InvalidPermissionFormatException` — exactly when the trimmed, lowercased
input violates the grammar (length 3–100, 2–5 dot-separated parts, each part
matching `^[a-z0-9_]+$`); in particular `""`, `"ab"`, `"a.b.c.d.e.f"` and
`"a..b"` are all rejected, and every input whose normalization satisfies the
grammar constructs successfully. -/
theorem permission_name_validation_exactly_grammar :
    (∀ s : PyStr, isOk (PermissionName.post_init s) = specGrammar (pyLower (pyStrip s)))
    ∧ (∀ s e, PermissionName.post_init s = .error e → e.cls = .invalidPermissionFormatCls)
    ∧ isOk (PermissionName.post_init (pyS "")) = false
    ∧ isOk (PermissionName.post_init (pyS "ab")) = false
    ∧ isOk (PermissionName.post_init (pyS "a.b.c.d.e.f")) = false
    ∧ isOk (PermissionName.post_init (pyS "a..b")) = false
    ∧ isOk (PermissionName.post_init (pyS "users.create")) = true :=
  ⟨isOk_post_init_eq_specGrammar, post_init_error_cls, rfl, rfl, rfl, rfl, rfl⟩

/-- C7: the stored value of a successfully constructed `PermissionName` is
the raw input stripped then lowercased; equality of the value objects is
equality of the normalized strings; `"Users.Create"` and `"users.create"`
construct equal values and `"USERS.CREATE "` (trailing space) normalizes to
`"users.create"`. -/
theorem permission_name_normalization :
    (∀ s pn, PermissionName.post_init s = .ok pn → pn.value = pyLower (pyStrip s))
    ∧ (∀ a b : PermissionName, a = b ↔ a.value = b.value)
    ∧ PermissionName.post_init (pyS "Users.Create") = PermissionName.post_init (pyS "users.create")
    ∧ PermissionName.post_init (pyS "USERS.CREATE ") = .ok ⟨pyS "users.create"⟩ := by
  refine ⟨fun s pn h => (post_init_ok_facts s pn h).1, fun a b => ?_, rfl, rfl⟩
  cases a
  cases b
  simp

theorem pySplit_ne_nil (sep : Char) : ∀ s : PyStr, pySplit sep s ≠ []
  | [] => by simp [pySplit]
  | c :: cs => by
    unfold pySplit
    cases h : pySplit sep cs with
    | nil => simp
    | cons p ps => split_ifs <;> simp

theorem reMatchWordPlus_ne_nil {t : PyStr} (h : reMatchWordPlus t = true) : t ≠ [] := by
  intro hnil
  rw [hnil] at h
  exact absurd h (by decide)

theorem head?_dropTrailingNewline (t : PyStr) (h : dropTrailingNewline t ≠ []) :
    (dropTrailingNewline t).head? = t.head? := by
  unfold dropTrailingNewline at h ⊢
  split_ifs at h ⊢ with hl
  · cases t with
    | nil => simp at h
    | cons a t2 =>
      cases t2 with
      | nil => simp at h
      | cons b t3 => simp
  · rfl

theorem resourceFmt_eq_firstChar_of_wordPlus {t : PyStr} (h : reMatchWordPlus t = true) :
    reMatchResourceFmt t = firstCharIsLowerAZ t := by
  have hb : (!(dropTrailingNewline t).isEmpty && (dropTrailingNewline t).all isWordChar) = true := by
    simpa [reMatchWordPlus] using h
  rw [Bool.and_eq_true] at hb
  obtain ⟨h1, h2⟩ := hb
  cases hu : dropTrailingNewline t with
  | nil =>
    rw [hu] at h1
    simp at h1
  | cons c rest =>
    have hh : (dropTrailingNewline t).head? = t.head? :=
      head?_dropTrailingNewline t (by rw [hu]; simp)
    rw [hu] at hh h2
    have hrest : rest.all isWordChar = true := by
      simp only [List.all_cons, Bool.and_eq_true] at h2
      exact h2.2
    unfold reMatchResourceFmt
    rw [hu]
    cases t with
    | nil => simp at hh
    | cons a t2 =>
      simp only [List.head?_cons, Option.some.injEq] at hh
      subst hh
      simp [firstCharIsLowerAZ, hrest]

theorem isOk_resource_make (v : PyStr) :
    isOk (PermissionResource.make v) = (!v.isEmpty && reMatchResourceFmt v) := by
  unfold PermissionResource.make
  split_ifs with ha hb
  · simp [isOk, ha]
  · have : reMatchResourceFmt v = false := by simpa using hb
    simp [isOk, this]
  · have hf : reMatchResourceFmt v = true := by simpa using hb
    have he : v.isEmpty = false := by simpa using ha
    simp [isOk, hf, he]

theorem get_base_resource_wordPlus (pn : PermissionName)
    (hvalid : PermissionName.is_valid_permission_format pn.value = true) :
    reMatchWordPlus pn.get_base_resource = true := by
  have hp := is_valid_eq_parts_conditions pn.value
  rw [hvalid] at hp
  have hall : (pySplit '.' pn.value).all reMatchWordPlus = true := by
    have h2 := hp.symm
    simp only [Bool.and_eq_true] at h2
    exact h2.2
  have hne := pySplit_ne_nil '.' pn.value
  unfold PermissionName.get_base_resource PermissionName.get_parts
  cases hsp : pySplit '.' pn.value with
  | nil => exact absurd hsp hne
  | cons p ps =>
    rw [hsp] at hall
    simp only [List.all_cons, Bool.and_eq_true] at hall
    simpa [List.headI] using hall.1

/-- C9: reading the `resource` property can raise even on validly constructed
names: `"1users.create"` and `"_x.create"` pass `PermissionName` validation
(parts match `^[a-z0-9_]+$`) but `resource` raises `ValueError`, because
`PermissionResource` additionally demands `^[a-z][a-z0-9_]*$`; on every valid
name, `resource` succeeds exactly when the first part starts with a
lowercase letter, and any failure is a `ValueError`. -/
theorem permission_name_resource_is_partial :
    (∃ pn, PermissionName.post_init (pyS "1users.create") = .ok pn ∧ isOk pn.resource = false)
    ∧ (∃ pn, PermissionName.post_init (pyS "_x.create") = .ok pn ∧ isOk pn.resource = false)
    ∧ (∀ s pn, PermissionName.post_init s = .ok pn →
        isOk pn.resource = firstCharIsLowerAZ pn.get_base_resource)
    ∧ (∀ (pn : PermissionName) (e : PyExc), pn.resource = .error e → e.cls = .valueErrorCls) := by
  refine ⟨⟨⟨pyS "1users.create"⟩, rfl, rfl⟩, ⟨⟨pyS "_x.create"⟩, rfl, rfl⟩,
    fun s pn h => ?_, fun pn e h => ?_⟩
  · obtain ⟨-, hvalid, -, -⟩ := post_init_ok_facts s pn h
    have hwp := get_base_resource_wordPlus pn hvalid
    have hne : pn.get_base_resource.isEmpty = false := by
      simpa [List.isEmpty_iff] using reMatchWordPlus_ne_nil hwp
    unfold PermissionName.resource
    rw [isOk_resource_make, resourceFmt_eq_firstChar_of_wordPlus hwp, hne]
    simp
  · unfold PermissionName.resource PermissionResource.make at h
    split_ifs at h with ha hb
    · injection h with h
      rw [← h]
    · injection h with h
      rw [← h]

theorem find_by_name_some_of_mem (repo : PermissionRepo) (n : PermissionName)
    (h : ∃ p ∈ repo.perms, p.nome.value = n.value) :
    ∃ q, repo.find_by_name n = some q := by
  obtain ⟨p, hp, hv⟩ := h
  unfold PermissionRepo.find_by_name
  have hsome : (repo.perms.find? fun p => decide (p.nome.value = n.value)).isSome = true := by
    rw [List.find?_isSome]
    exact ⟨p, hp, by simp [hv]⟩
  exact Option.isSome_iff_exists.mp hsome

/-- C8: when the repository already holds a permission whose normalized name
is `users.create` (as created from raw input `Users.Create`), executing
`CreatePermissionUseCase` for the raw name `users.create` fails with
`PermissionAlreadyExistsException` carrying the normalized name, and the
repository state is returned unchanged. -/
theorem create_permission_duplicate_rejected (repo : PermissionRepo)
    (d : Option PyStr) (i t : Nat)
    (h : ∃ p ∈ repo.perms, p.nome.value = pyS "users.create") :
    CreatePermissionUseCase.execute repo (pyS "users.create") d i t
      = (.error (PermissionAlreadyExistsException (pyS "users.create")), repo) := by
  have hok : PermissionName.post_init (pyS "users.create") = .ok ⟨pyS "users.create"⟩ := rfl
  obtain ⟨q, hq⟩ := find_by_name_some_of_mem repo ⟨pyS "users.create"⟩ h
  simp only [CreatePermissionUseCase.execute, hok, hq]

/-- Witness for C8: a concrete one-row repository; the stored row is exactly
the permission `Permission.create` builds from the raw input `Users.Create`. -/
theorem create_permission_duplicate_rejected_witness :
    Permission.create 1 0 (pyS "Users.Create") none
      = .ok ⟨1, ⟨pyS "users.create"⟩, none, 0⟩
    ∧ CreatePermissionUseCase.execute ⟨[⟨1, ⟨pyS "users.create"⟩, none, 0⟩]⟩
        (pyS "users.create") none 2 5
      = (.error (PermissionAlreadyExistsException (pyS "users.create")),
         ⟨[⟨1, ⟨pyS "users.create"⟩, none, 0⟩]⟩) :=
  ⟨rfl, create_permission_duplicate_rejected _ _ _ _
    ⟨⟨1, ⟨pyS "users.create"⟩, none, 0⟩, by simp, rfl⟩⟩

/-- C10: a raw name rejected by `PermissionName` validation makes `execute`
fail with the very `InvalidPermissionFormatException` the value object
raised: that class is not a subclass of `ValueError` (it derives from
`AuthException`, a plain `Exception`), so the `except ValueError` wrapper
that would produce `DomainValidationException` is unreachable and the
exception propagates unchanged. -/
theorem invalid_format_propagates_unwrapped :
    (∀ s e, PermissionName.post_init s = .error e →
      e.cls = .invalidPermissionFormatCls
      ∧ ExcClass.isSubclass e.cls .valueErrorCls = false
      ∧ ∀ repo d i t, CreatePermissionUseCase.execute repo s d i t = (.error e, repo))
    ∧ ExcClass.isSubclass .invalidPermissionFormatCls .valueErrorCls = false
    ∧ ExcClass.isSubclass .invalidPermissionFormatCls .authExceptionCls = true
    ∧ ExcClass.isSubclass .authExceptionCls .exceptionCls = true := by
  refine ⟨fun s e h => ?_, by decide, by decide, by decide⟩
  have hcls := post_init_error_cls s e h
  refine ⟨hcls, by rw [hcls]; decide, fun repo d i t => ?_⟩
  simp only [CreatePermissionUseCase.execute, h]
  rw [hcls]
  simp [show ExcClass.isSubclass ExcClass.invalidPermissionFormatCls ExcClass.valueErrorCls = false
    from by decide]
